import Mathlib

/-!
Verification of the SQLite/SQLCipher introspection engine
(`src/utils/database-operations.js`, `src/utils/detectors.js`,
`lib/database.js`) against its natural-language specification.

The JavaScript source is shallowly embedded: strings are `String` or
`List Char`, SQL scalar values are `Option Int` (`none` models SQL NULL;
the dynamic typing of the engine means any declared column type may hold
integer data, which suffices for every claim), fallible operations return
`Except`, and the concurrent fan-out groups are made deterministic by an
explicit `arrival` parameter listing the order in which per-item callbacks
complete.  Semantics of the JavaScript runtime (regular expressions) and
of the SQLite engine (`LIKE`) are modelled where noted.
-/

/-- ASCII uppercase conversion, as used by `toUpperCase()` on the
identifier and type strings appearing in the source (all ASCII). -/
def toUpperChar (c : Char) : Char :=
  if 97 ≤ c.toNat ∧ c.toNat ≤ 122 then Char.ofNat (c.toNat - 32) else c

/-- Whitespace test modelling the JavaScript `\s` class on ASCII input:
space, tab, line feed, vertical tab, form feed, carriage return. -/
def isSpace (c : Char) : Bool :=
  c.toNat = 32 ∨ c.toNat = 9 ∨ c.toNat = 10 ∨ c.toNat = 11 ∨ c.toNat = 12 ∨ c.toNat = 13

/-- Word-character test modelling the JavaScript `\w` class:
letters, digits, underscore. -/
def isWordChar (c : Char) : Bool :=
  (65 ≤ c.toNat ∧ c.toNat ≤ 90) ∨ (97 ≤ c.toNat ∧ c.toNat ≤ 122) ∨
    (48 ≤ c.toNat ∧ c.toNat ≤ 57) ∨ c.toNat = 95

/-- First character class of the identifier regular expression
`^[a-zA-Z_$][a-zA-Z0-9_$]*$` from `sanitizeSqlIdentifier`. -/
def isIdentStart (c : Char) : Bool :=
  (65 ≤ c.toNat ∧ c.toNat ≤ 90) ∨ (97 ≤ c.toNat ∧ c.toNat ≤ 122) ∨
    c.toNat = 95 ∨ c.toNat = 36

/-- Continuation character class of the identifier regular expression. -/
def isIdentChar (c : Char) : Bool :=
  isIdentStart c ∨ (48 ≤ c.toNat ∧ c.toNat ≤ 57)

/-- Test of the anchored regular expression `^[a-zA-Z_$][a-zA-Z0-9_$]*$`
used by `sanitizeSqlIdentifier` (detectors.js line 35). -/
def validPattern : List Char → Bool
  | [] => false
  | c :: cs => isIdentStart c && cs.all isIdentChar

/-- Structured error taxonomy; each constructor corresponds to one family
of `Error` messages thrown by the source. -/
inductive ValErr where
  | invalidQuery
  | notSelect
  | forbidden (kw : String)
deriving DecidableEq

/-- Errors of the database operations, classified as in the spec taxonomy;
each carries the data the corresponding source message interpolates. -/
inductive DbErr where
  | validation (e : ValErr)
  | invalidIdentifier (name : String)
  | tableNotFound (t : String)
  | columnNotFound (cols : List String)
  | infoUnavailable (msg : String)
  | queryFailed (msg : String)
deriving DecidableEq

/-- Decidable equality for `Except`, used to evaluate results at the
concrete inputs of the witnesses. -/
instance [DecidableEq ε] [DecidableEq α] : DecidableEq (Except ε α) := fun a b =>
  match a, b with
  | .error e, .error f => if h : e = f then .isTrue (by rw [h]) else .isFalse (by intro hc; cases hc; exact h rfl)
  | .ok x, .ok y => if h : x = y then .isTrue (by rw [h]) else .isFalse (by intro hc; cases hc; exact h rfl)
  | .error _, .ok _ => .isFalse (by intro hc; cases hc)
  | .ok _, .error _ => .isFalse (by intro hc; cases hc)

/-- Generic test for the error side of an `Except`. -/
def isErrB : Except ε α → Bool
  | .error _ => true
  | .ok _ => false

/-- `sanitizeSqlIdentifier` (detectors.js lines 28-42): rejects empty
input, then requires a full match of `^[a-zA-Z_$][a-zA-Z0-9_$]*$`.
The `typeof name !== 'string'` branch of the source is enforced here by
the type of the argument. -/
def sanitizeSqlIdentifier (name : String) : Except DbErr String :=
  if name = "" then .error (.invalidIdentifier name)
  else if validPattern name.toList then .ok name
  else .error (.invalidIdentifier name)

/-- Doubling of the `"` delimiter, from `identifier.replace(/"/g, '""')`
in `escapeIdentifier` (detectors.js line 54). -/
def doubleQuotes : List Char → List Char
  | [] => []
  | c :: cs => if c = '"' then '"' :: '"' :: doubleQuotes cs else c :: doubleQuotes cs

/-- `escapeIdentifier` (detectors.js lines 49-55): sanitize, then wrap in
double quotes with embedded double quotes doubled. -/
def escapeIdentifier (identifier : String) : Except DbErr String := do
  let _ ← sanitizeSqlIdentifier identifier
  return "\"" ++ String.mk (doubleQuotes identifier.toList) ++ "\""

/-- Inverse of quote doubling, used to state the conceptual round-trip of
the spec (quoting then unquoting returns the original). -/
def undoubleQuotes : List Char → List Char
  | [] => []
  | [c] => [c]
  | c :: d :: cs =>
    if c = '"' ∧ d = '"' then '"' :: undoubleQuotes cs
    else c :: undoubleQuotes (d :: cs)

/-- Conceptual unquoting from the spec: strip the surrounding `"` pair and
un-double embedded delimiters; fails when the delimiters are absent. -/
def unquoteIdentifier (s : String) : Option String :=
  let l := s.toList
  if 2 ≤ l.length ∧ l.head? = some '"' ∧ l.getLast? = some '"' then
    some (String.mk (undoubleQuotes ((l.drop 1).dropLast)))
  else none

/-- The identifier shape of the spec, stated declaratively: a first
character from `[A-Za-z_$]` followed by characters from `[A-Za-z0-9_$]`. -/
def identShape (s : String) : Prop :=
  ∃ c cs, s.toList = c :: cs ∧ isIdentStart c = true ∧ ∀ d ∈ cs, isIdentChar d = true

lemma doubleQuotes_id (l : List Char) (h : ∀ c ∈ l, c ≠ '"') : doubleQuotes l = l := by
  induction l with
  | nil => rfl
  | cons c cs ih =>
    rw [doubleQuotes, if_neg (h c (by simp))]
    rw [ih (fun x hx => h x (by simp [hx]))]

lemma undoubleQuotes_id (l : List Char) (h : ∀ c ∈ l, c ≠ '"') : undoubleQuotes l = l := by
  induction l using undoubleQuotes.induct with
  | case1 => rfl
  | case2 c => rfl
  | case3 c d cs hcd ih =>
    exact absurd hcd.1 (h c (by simp))
  | case4 c d cs hcd ih =>
    rw [undoubleQuotes, if_neg hcd]
    rw [ih (fun x hx => h x (by simp [hx]))]

lemma identChar_ne_quote {c : Char} (h : isIdentChar c = true) : c ≠ '"' := by
  intro hc
  subst hc
  simp [isIdentChar, isIdentStart] at h

lemma strMk_toList (s : String) : String.mk s.toList = s := by
  cases s
  rfl

lemma identShape_no_quote {s : String} (h : identShape s) : ∀ c ∈ s.toList, c ≠ '"' := by
  obtain ⟨c, cs, hl, hc, hcs⟩ := h
  intro x hx
  rw [hl] at hx
  rcases List.mem_cons.mp hx with rfl | hx
  · intro he
    subst he
    simp [isIdentStart] at hc
  · exact identChar_ne_quote (hcs x hx)

/-- Claim C5: strings of the identifier shape `[A-Za-z_$][A-Za-z0-9_$]*`
are accepted by the sanitizer and round-trip through quoting; strings
containing a space or a quote, starting with a digit, or empty are
rejected.  (Rejection of non-string input is enforced by the argument
type of the embedding.) -/
theorem C5_sanitizer_roundtrip (s : String) :
    (identShape s →
      sanitizeSqlIdentifier s = .ok s ∧
      ∃ e, escapeIdentifier s = .ok e ∧ unquoteIdentifier e = some s) ∧
    ((' ' ∈ s.toList ∨ '"' ∈ s.toList ∨
        (∃ c cs, s.toList = c :: cs ∧ 48 ≤ c.toNat ∧ c.toNat ≤ 57) ∨ s = "") →
      isErrB (sanitizeSqlIdentifier s) = true) := by
  constructor
  · intro hid
    have hq : ∀ c ∈ s.toList, c ≠ '"' := identShape_no_quote hid
    have hne : s ≠ "" := by
      obtain ⟨c, cs, hl, _, _⟩ := hid
      intro he
      rw [he] at hl
      exact absurd hl (by simp [String.toList])
    have hvp : validPattern s.toList = true := by
      obtain ⟨c, cs, hl, hc, hcs⟩ := hid
      rw [hl]
      simp [validPattern, hc, List.all_eq_true]
      exact hcs
    have hsan : sanitizeSqlIdentifier s = .ok s := by
      rw [sanitizeSqlIdentifier, if_neg hne, if_pos hvp]
    refine ⟨hsan, "\"" ++ String.mk (doubleQuotes s.toList) ++ "\"", ?_, ?_⟩
    · simp [escapeIdentifier, hsan]
    · rw [doubleQuotes_id s.toList hq]
      rw [strMk_toList]
      have hdata : ("\"" ++ s ++ "\"").toList = '"' :: (s.toList ++ ['"']) := by
        show ("\"" ++ s ++ "\"").data = '"' :: (s.data ++ ['"'])
        rw [String.data_append, String.data_append]
        rfl
      rw [unquoteIdentifier, hdata]
      rw [if_pos ?side]
      case side =>
        refine ⟨by simp, by simp, ?_⟩
        rw [show ('"' :: (s.toList ++ ['"'])) = ('"' :: s.toList) ++ ['"'] by simp]
        exact List.getLast?_concat _
      simp only [List.drop_one, List.tail_cons, List.dropLast_concat]
      rw [undoubleQuotes_id s.toList hq, strMk_toList]
  · intro hrej
    rw [sanitizeSqlIdentifier]
    by_cases hne : s = ""
    · rw [if_pos hne]
      rfl
    · rw [if_neg hne]
      have hvp : validPattern s.toList = false := by
        rcases hrej with hsp | hqt | ⟨c, cs, hl, hd1, hd2⟩ | he
        · rcases hl : s.toList with _ | ⟨c, cs⟩
          · rfl
          · rw [hl] at hsp
            rcases List.mem_cons.mp hsp with rfl | hsp
            · simp [validPattern, isIdentStart]
            · simp only [validPattern, Bool.and_eq_false_iff]
              right
              rw [List.all_eq_false]
              exact ⟨' ', hsp, by simp [isIdentChar, isIdentStart]⟩
        · rcases hl : s.toList with _ | ⟨c, cs⟩
          · rfl
          · rw [hl] at hqt
            rcases List.mem_cons.mp hqt with rfl | hqt
            · simp [validPattern, isIdentStart]
            · simp only [validPattern, Bool.and_eq_false_iff]
              right
              rw [List.all_eq_false]
              exact ⟨'"', hqt, by simp [isIdentChar, isIdentStart]⟩
        · rw [hl]
          simp only [validPattern, Bool.and_eq_false_iff]
          left
          simp only [isIdentStart]
          simp only [decide_eq_false_iff_not]
          omega
        · exact absurd he hne
      rw [if_neg (by rw [hvp]; exact Bool.false_ne_true)]
      rfl

/-- Witness for C5 at the identifier `users` and the rejected inputs
`user name` and `1st`. -/
theorem C5_sanitizer_roundtrip_witness :
    (sanitizeSqlIdentifier "users" = .ok "users" ∧
      ∃ e, escapeIdentifier "users" = .ok e ∧ unquoteIdentifier e = some "users") ∧
    isErrB (sanitizeSqlIdentifier "user name") = true ∧
    isErrB (sanitizeSqlIdentifier "1st") = true :=
  ⟨(C5_sanitizer_roundtrip "users").1 ⟨'u', "sers".toList, by decide, by decide, by decide⟩,
   (C5_sanitizer_roundtrip "user name").2 (Or.inl (by decide)),
   (C5_sanitizer_roundtrip "1st").2 (Or.inr (Or.inr (Or.inl ⟨'1', "st".toList, by decide, by decide, by decide⟩)))⟩

/-- Leading and trailing whitespace removal, from `query.trim()`
(database-operations.js line 112). -/
def trimList (l : List Char) : List Char :=
  ((l.dropWhile isSpace).reverse.dropWhile isSpace).reverse

/-- Whitespace-run collapsing, from `replace(/\s+/g, ' ')`: the flag
records whether the previous character was part of a whitespace run. -/
def collapseGo (afterSpace : Bool) : List Char → List Char
  | [] => []
  | c :: cs =>
    if isSpace c then
      if afterSpace then collapseGo true cs else ' ' :: collapseGo true cs
    else c :: collapseGo false cs

/-- Query normalization of `validateSelectQuery`
(database-operations.js line 112): trim, then collapse whitespace runs. -/
def normalizeQuery (l : List Char) : List Char :=
  collapseGo false (trimList l)

/-- Word-boundary test of the `\b` regex assertion before a keyword (which
starts with a word character): satisfied at the start of the string or
after a non-word character. -/
def boundaryB : Option Char → Bool
  | none => true
  | some c => !(isWordChar c)

/-- Test whether an uppercase keyword is a case-insensitive prefix of the
string followed by at least one whitespace character: the `KEYWORD\s+`
part of the regex built at database-operations.js line 128. -/
def matchesKwSpace : List Char → List Char → Bool
  | [], [] => false
  | [], c :: _ => isSpace c
  | _ :: _, [] => false
  | k :: ks, c :: cs => (k == toUpperChar c) && matchesKwSpace ks cs

/-- Unanchored scan for `\bKEYWORD\s+`, modelling `regex.test` of the
JavaScript runtime: tries the match at every position, threading the
previous character for the word-boundary test. -/
def scanKw (kw : List Char) : Option Char → List Char → Bool
  | _, [] => false
  | prev, c :: cs => (boundaryB prev && matchesKwSpace kw (c :: cs)) || scanKw kw (some c) cs

/-- The forbidden keyword list of `validateSelectQuery`
(database-operations.js lines 120-123). -/
def forbiddenKeywords : List String :=
  ["INSERT", "UPDATE", "DELETE", "DROP", "CREATE", "ALTER", "TRUNCATE", "REPLACE", "PRAGMA"]

/-- The anchored test `^SELECT\s+` (case-insensitive) of
database-operations.js line 115. -/
def startsSelectB (l : List Char) : Bool :=
  matchesKwSpace "SELECT".toList l

/-- `validateSelectQuery` (database-operations.js lines 106-135): reject
empty input, normalize whitespace, require a leading `SELECT` plus
whitespace, then reject on the first forbidden keyword whose regex
`\bKEYWORD\s+` matches.  The `keyword !== 'SELECT'` guard of the source
is kept although it never fails on this list. -/
def validateSelectQuery (q : String) : Except ValErr Bool :=
  if q = "" then .error .invalidQuery
  else if startsSelectB (normalizeQuery q.toList) then
    match forbiddenKeywords.find?
        (fun kw => scanKw kw.toList none (normalizeQuery q.toList) && kw != "SELECT") with
    | some kw => .error (.forbidden kw)
    | none => .ok true
  else .error .notSelect

/-- The word-boundary condition before an occurrence: the text before it
is empty (boundary given by `prev`) or ends in a non-word character. -/
def boundaryOkP (prev : Option Char) (pre : List Char) : Prop :=
  boundaryB (pre.getLast?.or prev) = true

lemma matchesKwSpace_nil_right (kw : List Char) : matchesKwSpace kw [] = false := by
  cases kw <;> rfl

lemma matchesKwSpace_iff (kw : List Char) : ∀ rest : List Char,
    matchesKwSpace kw rest = true ↔
      ∃ mid c post, rest = mid ++ c :: post ∧ mid.map toUpperChar = kw ∧ isSpace c = true := by
  induction kw with
  | nil =>
    intro rest
    cases rest with
    | nil =>
      simp only [matchesKwSpace, Bool.false_eq_true, false_iff]
      rintro ⟨mid, c, post, h, -, -⟩
      exact absurd h.symm (by simp)
    | cons c cs =>
      simp only [matchesKwSpace]
      constructor
      · intro h
        exact ⟨[], c, cs, rfl, rfl, h⟩
      · rintro ⟨mid, c2, post, heq, hmap, hsp⟩
        have hnil : mid = [] := List.map_eq_nil_iff.mp hmap
        subst hnil
        cases heq
        exact hsp
  | cons k ks ih =>
    intro rest
    cases rest with
    | nil =>
      simp only [matchesKwSpace_nil_right, Bool.false_eq_true, false_iff]
      rintro ⟨mid, c, post, h, -, -⟩
      exact absurd h.symm (by simp)
    | cons c cs =>
      simp only [matchesKwSpace, Bool.and_eq_true, beq_iff_eq]
      constructor
      · rintro ⟨hk, hm⟩
        obtain ⟨mid, c2, post, heq, hmap, hsp⟩ := (ih cs).mp hm
        exact ⟨c :: mid, c2, post, by simp [heq], by simp [hmap, hk], hsp⟩
      · rintro ⟨mid, c2, post, heq, hmap, hsp⟩
        cases mid with
        | nil => simp at hmap
        | cons m mid2 =>
          simp only [List.cons_append] at heq
          injection heq with h1 h2
          subst h1
          simp only [List.map_cons, List.cons.injEq] at hmap
          exact ⟨hmap.1.symm, (ih cs).mpr ⟨mid2, c2, post, h2, hmap.2, hsp⟩⟩

lemma boundaryOkP_cons (prev : Option Char) (c : Char) (pre : List Char) :
    boundaryOkP prev (c :: pre) ↔ boundaryOkP (some c) pre := by
  cases pre with
  | nil =>
    simp [boundaryOkP, List.getLast?_singleton]
  | cons d pre2 =>
    have hs : ((d :: pre2).getLast?).isSome := by
      rw [List.getLast?_isSome]
      simp
    obtain ⟨e, he⟩ := Option.isSome_iff_exists.mp hs
    simp only [boundaryOkP, List.getLast?_cons_cons, he, Option.or_some]

lemma scanKw_iff (kw : List Char) : ∀ (s : List Char) (prev : Option Char),
    scanKw kw prev s = true ↔
      ∃ pre rest, s = pre ++ rest ∧ matchesKwSpace kw rest = true ∧ boundaryOkP prev pre := by
  intro s
  induction s with
  | nil =>
    intro prev
    simp only [scanKw, Bool.false_eq_true, false_iff]
    rintro ⟨pre, rest, heq, hm, -⟩
    have : rest = [] := (List.append_eq_nil.mp heq.symm).2
    subst this
    rw [matchesKwSpace_nil_right] at hm
    exact Bool.false_ne_true hm
  | cons c cs ih =>
    intro prev
    simp only [scanKw, Bool.or_eq_true, Bool.and_eq_true]
    constructor
    · rintro (⟨hb, hm⟩ | hrec)
      · exact ⟨[], c :: cs, rfl, hm, by simpa [boundaryOkP] using hb⟩
      · obtain ⟨pre, rest, heq, hm, hb⟩ := (ih (some c)).mp hrec
        exact ⟨c :: pre, rest, by simp [heq], hm, (boundaryOkP_cons prev c pre).mpr hb⟩
    · rintro ⟨pre, rest, heq, hm, hb⟩
      cases pre with
      | nil =>
        cases heq
        exact Or.inl ⟨by simpa [boundaryOkP] using hb, hm⟩
      | cons p pre2 =>
        simp only [List.cons_append] at heq
        injection heq with h1 h2
        subst h1
        exact Or.inr ((ih (some c)).mpr ⟨pre2, rest, h2, hm, (boundaryOkP_cons prev c pre2).mp hb⟩)

lemma boundaryOkP_none_iff (pre : List Char) :
    boundaryOkP none pre ↔ (pre = [] ∨ ∃ p2 d, pre = p2 ++ [d] ∧ isWordChar d = false) := by
  induction pre using List.reverseRecOn with
  | nil => simp [boundaryOkP, boundaryB]
  | append_singleton p2 d ih =>
    simp only [boundaryOkP, List.getLast?_concat, Option.or_some, boundaryB, Bool.not_eq_true']
    constructor
    · intro h
      exact Or.inr ⟨p2, d, rfl, h⟩
    · rintro (h | ⟨q, e, heq, he⟩)
      · exact absurd h (by simp)
      · obtain ⟨rfl, rfl⟩ : p2 = q ∧ d = e := by
          have := List.append_inj heq (by
            have := congrArg List.length heq
            simpa using this)
          simpa using this
        exact he

/-- A forbidden keyword occurring as a whole word followed by at least one
whitespace character, stated declaratively over the scanned string. -/
def kwWordSpace (kw : String) (s : List Char) : Prop :=
  ∃ pre mid c post, s = pre ++ mid ++ c :: post ∧ mid.map toUpperChar = kw.toList ∧
    isSpace c = true ∧ (pre = [] ∨ ∃ p2 d, pre = p2 ++ [d] ∧ isWordChar d = false)

/-- A forbidden keyword occurring as a whole word (word boundaries on both
sides), the occurrence condition used by claim C2 as stated. -/
def kwWholeWord (kw : String) (s : List Char) : Prop :=
  ∃ pre mid post, s = pre ++ mid ++ post ∧ mid.map toUpperChar = kw.toList ∧ mid ≠ [] ∧
    (pre = [] ∨ ∃ p2 d, pre = p2 ++ [d] ∧ isWordChar d = false) ∧
    (post = [] ∨ ∃ e rest2, post = e :: rest2 ∧ isWordChar e = false)

lemma kwWordSpace_iff (kw : String) (s : List Char) :
    scanKw kw.toList none s = true ↔ kwWordSpace kw s := by
  rw [scanKw_iff]
  constructor
  · rintro ⟨pre, rest, heq, hm, hb⟩
    obtain ⟨mid, c, post, hr, hmap, hsp⟩ := (matchesKwSpace_iff kw.toList rest).mp hm
    refine ⟨pre, mid, c, post, ?_, hmap, hsp, (boundaryOkP_none_iff pre).mp hb⟩
    rw [heq, hr, List.append_assoc]
  · rintro ⟨pre, mid, c, post, heq, hmap, hsp, hb⟩
    refine ⟨pre, mid ++ c :: post, ?_, ?_, (boundaryOkP_none_iff pre).mpr hb⟩
    · rw [heq, List.append_assoc]
    · exact (matchesKwSpace_iff kw.toList _).mpr ⟨mid, c, post, rfl, hmap, hsp⟩

/-- Claim C2 (amended): the classifier rejects every query whose
normalized form contains a forbidden keyword as a whole word followed by
at least one whitespace character, and accepts every nonempty query whose
normalized form starts with SELECT plus whitespace and contains no such
keyword-followed-by-whitespace occurrence.  (A forbidden keyword at the
very end of the query, or followed by punctuation, does not trigger
rejection: the source regex requires trailing whitespace.) -/
theorem C2_classifier_characterization (q : String) :
    (∀ kw ∈ forbiddenKeywords, kwWordSpace kw (normalizeQuery q.toList) →
      isErrB (validateSelectQuery q) = true) ∧
    (q ≠ "" → startsSelectB (normalizeQuery q.toList) = true →
      (∀ kw ∈ forbiddenKeywords, ¬ kwWordSpace kw (normalizeQuery q.toList)) →
      validateSelectQuery q = .ok true) := by
  have hnosel : ∀ x ∈ forbiddenKeywords, (x != "SELECT") = true := by decide
  constructor
  · intro kw hkw hws
    have hscan : scanKw kw.toList none (normalizeQuery q.toList) = true :=
      (kwWordSpace_iff kw _).mpr hws
    rw [validateSelectQuery]
    by_cases hq : q = ""
    · rw [if_pos hq]
      rfl
    · rw [if_neg hq]
      by_cases hsel : startsSelectB (normalizeQuery q.toList)
      · rw [if_pos hsel]
        cases hf : forbiddenKeywords.find?
            (fun kw => scanKw kw.toList none (normalizeQuery q.toList) && kw != "SELECT") with
        | none =>
          exact absurd (by rw [hscan, hnosel kw hkw]; rfl) (List.find?_eq_none.mp hf kw hkw)
        | some k => rfl
      · rw [if_neg hsel]
        rfl
  · intro hq hsel hnone
    rw [validateSelectQuery, if_neg hq, if_pos hsel]
    have hf : forbiddenKeywords.find?
        (fun kw => scanKw kw.toList none (normalizeQuery q.toList) && kw != "SELECT") = none := by
      rw [List.find?_eq_none]
      intro kw hkw
      have : scanKw kw.toList none (normalizeQuery q.toList) = false := by
        rw [← Bool.not_eq_true, kwWordSpace_iff]
        exact hnone kw hkw
      simp only [String.toList] at this
      simp [this]
    rw [hf]

/-- Counterexample for C2 as stated: in the query SELECT delete, the
forbidden keyword DELETE appears as a whole word (at the end of the
query), yet the classifier accepts the query, because the source regex
requires the keyword to be followed by whitespace. -/
theorem C2_whole_word_counterexample :
    kwWholeWord "DELETE" (normalizeQuery ("SELECT delete".toList)) ∧
    validateSelectQuery "SELECT delete" = .ok true := by
  constructor
  · exact ⟨"SELECT ".toList, "delete".toList, [], by decide, by decide, by decide,
      Or.inr ⟨"SELECT".toList, ' ', by decide, by decide⟩, Or.inl rfl⟩
  · decide

/-- Witness for C2: the amended rejection direction fires on a query with
INSERT followed by whitespace, and the acceptance direction fires on
SELECT 1. -/
theorem C2_classifier_witness :
    isErrB (validateSelectQuery "select insert into x") = true ∧
    validateSelectQuery "SELECT 1" = .ok true := by
  constructor
  · exact (C2_classifier_characterization "select insert into x").1 "INSERT" (by decide)
      ⟨"select ".toList, "insert".toList, ' ', "into x".toList, by decide, by decide,
        by decide, Or.inr ⟨"select".toList, ' ', by decide, by decide⟩⟩
  · apply (C2_classifier_characterization "SELECT 1").2 (by decide) (by decide)
    intro kw hkw hws
    have hscan := (kwWordSpace_iff kw (normalizeQuery ("SELECT 1".toList))).mpr hws
    have hmem : kw = "INSERT" ∨ kw = "UPDATE" ∨ kw = "DELETE" ∨ kw = "DROP" ∨
        kw = "CREATE" ∨ kw = "ALTER" ∨ kw = "TRUNCATE" ∨ kw = "REPLACE" ∨ kw = "PRAGMA" := by
      simpa [forbiddenKeywords] using hkw
    rcases hmem with rfl | rfl | rfl | rfl | rfl | rfl | rfl | rfl | rfl <;>
      revert hscan <;> decide

/-- Token alphabet of the regular expression that `searchColumns` builds
from its pattern (database-operations.js line 910): `%` becomes `.*`,
`_` becomes `.`, every other character stays literal. -/
inductive Tok where
  | dot
  | dotStar
  | lit (c : Char)
deriving DecidableEq

/-- The translation `pattern.replace(/%/g, '.*').replace(/_/g, '.')` of
database-operations.js line 910, restricted to patterns without further
regex metacharacters (see `regexSafe`). -/
def regexTokens (p : List Char) : List Tok :=
  p.map (fun c => if c = '%' then .dotStar else if c = '_' then .dot else .lit c)

/-- Patterns on which the token model of the translated regex is exact:
no character of the pattern is itself a regex metacharacter. -/
def regexSafe (p : String) : Bool :=
  p.toList.all (fun c =>
    !(c ∈ ['.', '*', '+', '?', '(', ')', '[', ']', '\x7b', '\x7d', '\\', '^', '$', '|']))

/-- Try a Boolean condition on every suffix of the string (used for the
unanchored start position of `regex.test`, and for the run consumed by a
LIKE `%` wildcard). -/
def anySuffix (f : List Char → Bool) : List Char → Bool
  | [] => f []
  | c :: cs => f (c :: cs) || anySuffix f cs

/-- Like `anySuffix`, but the characters skipped over must not be line
feeds: the run matched by `.*` in a regex without the dotall flag. -/
def starScan (f : List Char → Bool) : List Char → Bool
  | [] => f []
  | c :: cs => f (c :: cs) || ((c != '\n') && starScan f cs)

/-- Anchored match of a token list against an entire string, modelling the
JavaScript regex semantics: `.` is any character except line feed, `.*` a
greedy run of such characters, literals compare case-insensitively (the
`i` flag). -/
def matchToks : List Tok → List Char → Bool
  | [], s => s.isEmpty
  | .dot :: ts, s =>
    match s with
    | [] => false
    | c :: cs => (c != '\n') && matchToks ts cs
  | .lit a :: ts, s =>
    match s with
    | [] => false
    | c :: cs => (toUpperChar a == toUpperChar c) && matchToks ts cs
  | .dotStar :: ts, s => starScan (matchToks ts) s

/-- Match of a token list against some prefix of the string (trailing
characters permitted). -/
def matchToksFrom : List Tok → List Char → Bool
  | [], _ => true
  | .dot :: ts, s =>
    match s with
    | [] => false
    | c :: cs => (c != '\n') && matchToksFrom ts cs
  | .lit a :: ts, s =>
    match s with
    | [] => false
    | c :: cs => (toUpperChar a == toUpperChar c) && matchToksFrom ts cs
  | .dotStar :: ts, s => starScan (matchToksFrom ts) s

/-- `regex.test(name)` of the JavaScript runtime: unanchored search, so
the token list may match any contiguous substring. -/
def regexTest (ts : List Tok) (s : List Char) : Bool :=
  anySuffix (matchToksFrom ts) s

/-- The per-column match performed by `searchColumns`
(database-operations.js lines 910-911). -/
def searchColumnsMatches (pattern name : String) : Bool :=
  regexTest (regexTokens pattern.toList) name.toList

/-- Modelled from the spec: the SQLite `LIKE` semantics natively used by
`searchTables` (the engine itself is not part of the repository sources):
`%` matches any run of characters, `_` exactly one character, all other
characters themselves, ASCII case-insensitively, and the pattern must
cover the whole string. -/
def likeMatchL : List Char → List Char → Bool
  | [], s => s.isEmpty
  | p :: ps, s =>
    if p = '%' then anySuffix (likeMatchL ps) s
    else
      match s with
      | [] => false
      | c :: cs => (p = '_' || (toUpperChar p == toUpperChar c)) && likeMatchL ps cs

/-- String-level wrapper of the native LIKE match. -/
def sqlLikeMatch (pattern name : String) : Bool :=
  likeMatchL pattern.toList name.toList

lemma anySuffix_iff (f : List Char → Bool) : ∀ s : List Char,
    anySuffix f s = true ↔ ∃ pre suf, s = pre ++ suf ∧ f suf = true := by
  intro s
  induction s with
  | nil =>
    simp only [anySuffix]
    constructor
    · intro h
      exact ⟨[], [], rfl, h⟩
    · rintro ⟨pre, suf, heq, hf⟩
      obtain ⟨rfl, rfl⟩ := List.append_eq_nil.mp heq.symm
      exact hf
  | cons c cs ih =>
    simp only [anySuffix, Bool.or_eq_true]
    constructor
    · rintro (h | h)
      · exact ⟨[], c :: cs, rfl, h⟩
      · obtain ⟨pre, suf, heq, hf⟩ := ih.mp h
        exact ⟨c :: pre, suf, by simp [heq], hf⟩
    · rintro ⟨pre, suf, heq, hf⟩
      cases pre with
      | nil =>
        cases heq
        exact Or.inl hf
      | cons p pre2 =>
        simp only [List.cons_append] at heq
        injection heq with h1 h2
        exact Or.inr (ih.mpr ⟨pre2, suf, h2, hf⟩)

lemma starScan_iff (f : List Char → Bool) : ∀ s : List Char,
    starScan f s = true ↔
      ∃ run suf, s = run ++ suf ∧ run.all (fun c => c != '\n') = true ∧ f suf = true := by
  intro s
  induction s with
  | nil =>
    simp only [starScan]
    constructor
    · intro h
      exact ⟨[], [], rfl, rfl, h⟩
    · rintro ⟨run, suf, heq, -, hf⟩
      obtain ⟨rfl, rfl⟩ := List.append_eq_nil.mp heq.symm
      exact hf
  | cons c cs ih =>
    simp only [starScan, Bool.or_eq_true, Bool.and_eq_true]
    constructor
    · rintro (h | ⟨hc, h⟩)
      · exact ⟨[], c :: cs, rfl, rfl, h⟩
      · obtain ⟨run, suf, heq, hall, hf⟩ := ih.mp h
        exact ⟨c :: run, suf, by simp [heq], by simp [List.all_cons, hc, hall], hf⟩
    · rintro ⟨run, suf, heq, hall, hf⟩
      cases run with
      | nil =>
        cases heq
        exact Or.inl hf
      | cons r run2 =>
        simp only [List.cons_append] at heq
        injection heq with h1 h2
        subst h1
        simp only [List.all_cons, Bool.and_eq_true] at hall
        exact Or.inr ⟨hall.1, ih.mpr ⟨run2, suf, h2, hall.2, hf⟩⟩

lemma matchToks_nil_lit (a : Char) (ts : List Tok) : matchToks (.lit a :: ts) [] = false := rfl

lemma matchToksFrom_iff : ∀ (ts : List Tok) (s : List Char),
    matchToksFrom ts s = true ↔ ∃ mid post, s = mid ++ post ∧ matchToks ts mid = true := by
  intro ts
  induction ts with
  | nil =>
    intro s
    simp only [matchToksFrom, true_iff]
    exact ⟨[], s, rfl, rfl⟩
  | cons t ts ih =>
    intro s
    cases t with
    | dot =>
      cases s with
      | nil =>
        simp only [matchToksFrom, Bool.false_eq_true, false_iff]
        rintro ⟨mid, post, heq, hm⟩
        obtain ⟨rfl, rfl⟩ := List.append_eq_nil.mp heq.symm
        exact Bool.false_ne_true hm
      | cons c cs =>
        simp only [matchToksFrom, Bool.and_eq_true]
        constructor
        · rintro ⟨hc, h⟩
          obtain ⟨mid, post, heq, hm⟩ := (ih cs).mp h
          refine ⟨c :: mid, post, by simp [heq], ?_⟩
          simp only [matchToks, Bool.and_eq_true]
          exact ⟨hc, hm⟩
        · rintro ⟨mid, post, heq, hm⟩
          cases mid with
          | nil => exact absurd hm (by simp [matchToks])
          | cons m mid2 =>
            simp only [List.cons_append] at heq
            injection heq with h1 h2
            subst h1
            simp only [matchToks, Bool.and_eq_true] at hm
            exact ⟨hm.1, (ih cs).mpr ⟨mid2, post, h2, hm.2⟩⟩
    | lit a =>
      cases s with
      | nil =>
        simp only [matchToksFrom, Bool.false_eq_true, false_iff]
        rintro ⟨mid, post, heq, hm⟩
        obtain ⟨rfl, rfl⟩ := List.append_eq_nil.mp heq.symm
        exact Bool.false_ne_true hm
      | cons c cs =>
        simp only [matchToksFrom, Bool.and_eq_true]
        constructor
        · rintro ⟨hc, h⟩
          obtain ⟨mid, post, heq, hm⟩ := (ih cs).mp h
          refine ⟨c :: mid, post, by simp [heq], ?_⟩
          simp only [matchToks, Bool.and_eq_true]
          exact ⟨hc, hm⟩
        · rintro ⟨mid, post, heq, hm⟩
          cases mid with
          | nil => exact absurd hm (by simp [matchToks])
          | cons m mid2 =>
            simp only [List.cons_append] at heq
            injection heq with h1 h2
            subst h1
            simp only [matchToks, Bool.and_eq_true] at hm
            exact ⟨hm.1, (ih cs).mpr ⟨mid2, post, h2, hm.2⟩⟩
    | dotStar =>
      simp only [matchToksFrom, matchToks]
      constructor
      · intro h
        obtain ⟨run, suf, heq, hall, hf⟩ := (starScan_iff (matchToksFrom ts) s).mp h
        obtain ⟨mid, post, hsuf, hm⟩ := (ih suf).mp hf
        refine ⟨run ++ mid, post, by rw [heq, hsuf, List.append_assoc], ?_⟩
        exact (starScan_iff (matchToks ts) (run ++ mid)).mpr ⟨run, mid, rfl, hall, hm⟩
      · rintro ⟨bigMid, post, heq, hm⟩
        obtain ⟨run, mid, hbm, hall, hmk⟩ := (starScan_iff (matchToks ts) bigMid).mp hm
        refine (starScan_iff (matchToksFrom ts) s).mpr
          ⟨run, mid ++ post, by rw [heq, hbm, List.append_assoc], hall, ?_⟩
        exact (ih (mid ++ post)).mpr ⟨mid, post, rfl, hmk⟩

lemma starScan_eq_anySuffix (f g : List Char → Bool)
    (hfg : ∀ t, t.all (fun c => c != '\n') = true → f t = g t) :
    ∀ s, s.all (fun c => c != '\n') = true → starScan f s = anySuffix g s := by
  intro s
  induction s with
  | nil =>
    intro h
    exact hfg [] rfl
  | cons c cs ih =>
    intro h
    simp only [List.all_cons, Bool.and_eq_true] at h
    simp only [starScan, anySuffix, hfg (c :: cs) (by simp [List.all_cons, h.1, h.2]),
      h.1, Bool.true_and, ih h.2]

lemma matchToks_regexTokens_eq_like : ∀ (p mid : List Char),
    mid.all (fun c => c != '\n') = true →
    matchToks (regexTokens p) mid = likeMatchL p mid := by
  intro p
  induction p with
  | nil =>
    intro mid h
    rfl
  | cons c ps ih =>
    intro mid h
    by_cases hc : c = '%'
    · subst hc
      show matchToks (.dotStar :: regexTokens ps) mid = likeMatchL ('%' :: ps) mid
      rw [show likeMatchL ('%' :: ps) mid = anySuffix (likeMatchL ps) mid from rfl]
      exact starScan_eq_anySuffix _ _ ih mid h
    · by_cases hc2 : c = '_'
      · subst hc2
        show matchToks (.dot :: regexTokens ps) mid = likeMatchL ('_' :: ps) mid
        cases mid with
        | nil => rfl
        | cons m ms =>
          simp only [List.all_cons, Bool.and_eq_true] at h
          simp only [matchToks, likeMatchL, if_neg (by decide : ¬ ('_' : Char) = '%'), h.1,
            Bool.true_and, ih ms h.2]
          simp
      · rw [show regexTokens (c :: ps) = .lit c :: regexTokens ps by
          simp [regexTokens, hc, hc2]]
        cases mid with
        | nil =>
          rw [matchToks_nil_lit, likeMatchL, if_neg hc]
        | cons m ms =>
          simp only [List.all_cons, Bool.and_eq_true] at h
          simp only [matchToks, likeMatchL, if_neg hc, if_neg hc2, ih ms h.2]
          simp [hc2]

/-- Claim C4 (amended): for patterns free of further regex metacharacters
and names without line feeds, `searchColumns` matches a column name
exactly when the translated wildcard pattern fully matches some
contiguous substring of the name — an unanchored match, unlike the native
LIKE of `searchTables`, which must cover the whole name. -/
theorem C4_search_columns_substring (p n : String)
    (_hp : regexSafe p = true) (hn : '\n' ∉ n.toList) :
    searchColumnsMatches p n = true ↔
      ∃ pre mid post, n.toList = pre ++ mid ++ post ∧ likeMatchL p.toList mid = true := by
  have hmem : ∀ mid post pre : List Char, n.toList = pre ++ mid ++ post →
      mid.all (fun c => c != '\n') = true := by
    intro mid post pre heq
    rw [List.all_eq_true]
    intro c hc
    have hcm : c ∈ n.toList := by
      rw [heq]
      simp [hc]
    have : c ≠ '\n' := fun he => hn (he ▸ hcm)
    simpa using this
  rw [searchColumnsMatches, regexTest, anySuffix_iff]
  constructor
  · rintro ⟨pre, suf, heq, hfrom⟩
    obtain ⟨mid, post, hsuf, hmk⟩ := (matchToksFrom_iff _ suf).mp hfrom
    have heq2 : n.toList = pre ++ mid ++ post := by
      rw [heq, hsuf, List.append_assoc]
    refine ⟨pre, mid, post, heq2, ?_⟩
    rw [← matchToks_regexTokens_eq_like p.toList mid (hmem mid post pre heq2)]
    exact hmk
  · rintro ⟨pre, mid, post, heq, hlike⟩
    refine ⟨pre, mid ++ post, by rw [heq, List.append_assoc], ?_⟩
    refine (matchToksFrom_iff _ _).mpr ⟨mid, post, rfl, ?_⟩
    rw [matchToks_regexTokens_eq_like p.toList mid (hmem mid post pre heq)]
    exact hlike

/-- Counterexample for C4 as stated: the pattern id matches the column
name order_id in `searchColumns` (substring semantics of `regex.test`)
although the native LIKE used by `searchTables` does not match it (the
pattern must cover the whole name). -/
theorem C4_substring_counterexample :
    searchColumnsMatches "id" "order_id" = true ∧ sqlLikeMatch "id" "order_id" = false := by
  constructor
  · decide
  · decide

/-- Witness for C4: the amended equivalence instantiated at the pattern
id and the name order_id. -/
theorem C4_search_columns_witness :
    ∃ pre mid post, "order_id".toList = pre ++ mid ++ post ∧
      likeMatchL "id".toList mid = true :=
  (C4_search_columns_substring "id" "order_id" (by decide) (by decide)).mp (by decide)

/-- A SQL scalar value: `none` is SQL NULL.  Only integer payloads are
modelled; the engine is dynamically typed, so any declared column type
may hold them, and no claim depends on other payload kinds. -/
abbrev Value := Option Int

/-- Column metadata as returned by PRAGMA table_info.  The source also
receives cid, notnull, dflt_value and pk per column; no claim touches
them, so only name and declared type are modelled. -/
structure Column where
  name : String
  type : String
deriving DecidableEq

/-- A row of PRAGMA foreign_key_list: in the raw pragma output the table
field holds the referenced (target) table; fromCol and toCol model the
from and to fields of the pragma row (both are reserved words in Lean).
The id, seq, on_update, on_delete and match fields are untouched by the
claims and omitted. -/
structure PragmaFK where
  table : String
  fromCol : String
  toCol : String
deriving DecidableEq

/-- One table of the database: its catalog name, its columns in
declaration order, its rows (one value per column, positionally), and its
raw foreign-key pragma rows. -/
structure Table where
  name : String
  columns : List Column
  rows : List (List Value)
  fks : List PragmaFK
deriving DecidableEq

/-- The database: the catalog list of tables (views are not distinguished;
no claim depends on the kind tag). -/
structure DB where
  tables : List Table
deriving DecidableEq

/-- Byte-wise lexicographic order on names, modelling the BINARY collation
of ORDER BY name. -/
def charListLe : List Char → List Char → Bool
  | [], _ => true
  | _ :: _, [] => false
  | a :: as, b :: bs =>
    if a.toNat < b.toNat then true
    else if b.toNat < a.toNat then false
    else charListLe as bs

/-- String comparison wrapper for `charListLe`. -/
def strLe (a b : String) : Bool :=
  charListLe a.toList b.toList

/-- Insertion step of the name sort. -/
def insertSorted (x : Table) : List Table → List Table
  | [] => [x]
  | y :: ys => if strLe x.name y.name then x :: y :: ys else y :: insertSorted x ys

/-- Stable insertion sort by table name, modelling ORDER BY name of
`getTableList` (database-operations.js line 242). -/
def sortTables : List Table → List Table
  | [] => []
  | x :: xs => insertSorted x (sortTables xs)

/-- The exclusion NOT LIKE 'sqlite\_%' of internal catalog entries
(database-operations.js line 233): at least seven characters and a
case-insensitive sqlite prefix. -/
def isInternalName (n : String) : Bool :=
  decide (7 ≤ n.toList.length) && ((n.toList.map toUpperChar).take 6 == "SQLITE".toList)

/-- `getTableList` (database-operations.js lines 224-253): catalog entries
that are not internal, optionally restricted to a nonempty name set,
ordered by name.  The source returns name/type/sql triples; the model
returns the tables themselves. -/
def getTableList (db : DB) (tableNames : Option (List String)) : List Table :=
  let base := db.tables.filter (fun tb => !(isInternalName tb.name))
  let filtered := match tableNames with
    | some ns => if ns.isEmpty then base else base.filter (fun tb => ns.contains tb.name)
    | none => base
  sortTables filtered

/-- The existence check SELECT name FROM sqlite_master WHERE ... name = ?
used by `getTableSchema` (database-operations.js lines 264-273). -/
def findTable (db : DB) (t : String) : Option Table :=
  db.tables.find? (fun tb => tb.name == t)

/-- Set-like deduplication keeping the first occurrence, modelling the
JavaScript new Set iteration order. -/
def dedupFirstGo [DecidableEq α] (seen : List α) : List α → List α
  | [] => []
  | x :: xs => if x ∈ seen then dedupFirstGo seen xs else x :: dedupFirstGo (x :: seen) xs

/-- Deduplication entry point. -/
def dedupFirst [DecidableEq α] (l : List α) : List α :=
  dedupFirstGo [] l

/-- `getForeignKeys` (database-operations.js lines 297-339).  For a named
table, the pragma rows of that table; with no name, the concatenation over
the whole catalog.  In both branches the source spreads the pragma row and
then assigns table: tableName, OVERWRITING the referenced-table field of
the pragma row with the owning table name. -/
def getForeignKeys (db : DB) (tableName : Option String) : List PragmaFK :=
  match tableName with
  | some t =>
    let fks : List PragmaFK :=
      match findTable db t with
      | some tb => tb.fks
      | none => []
    fks.map (fun fk => { fk with table := t })
  | none =>
    (getTableList db none).flatMap (fun tb => tb.fks.map (fun fk => { fk with table := tb.name }))

/-- Result shape of `findRelatedTables`. -/
structure RelatedTables where
  table_name : String
  references_tables : List String
  referenced_by_tables : List String
  outgoing_foreign_keys : List PragmaFK
  incoming_foreign_keys : List PragmaFK
deriving DecidableEq

/-- `findRelatedTables` (database-operations.js lines 941-967): verify the
table exists, collect its own pragma rows as outgoing edges, and filter
the full fan-out edge list on the (already overwritten) table field for
the incoming edges. -/
def findRelatedTables (db : DB) (tableName : String) : Except DbErr RelatedTables :=
  match findTable db tableName with
  | none => .error (.tableNotFound tableName)
  | some _ =>
    let outgoingFks := getForeignKeys db (some tableName)
    let allFks := getForeignKeys db none
    let incomingFks := allFks.filter (fun fk => fk.table == tableName)
    .ok { table_name := tableName,
          references_tables := dedupFirst (outgoingFks.map (fun fk => fk.table)),
          referenced_by_tables := dedupFirst (incomingFks.map (fun fk => fk.table)),
          outgoing_foreign_keys := outgoingFks,
          incoming_foreign_keys := incomingFks }

/-- Case-insensitive-ready prefix test on character lists. -/
def leadingMatch : List Char → List Char → Bool
  | [], _ => true
  | _ :: _, [] => false
  | a :: as, b :: bs => (a == b) && leadingMatch as bs

/-- Substring containment, modelling String.prototype.includes. -/
def listContains (needle : List Char) : List Char → Bool
  | [] => needle.isEmpty
  | c :: cs => leadingMatch needle (c :: cs) || listContains needle cs

/-- String wrapper for substring containment. -/
def strIncludes (hay needle : String) : Bool :=
  listContains needle.toList hay.toList

/-- ASCII uppercasing of a whole string, modelling toUpperCase(). -/
def upperStr (s : String) : String :=
  String.mk (s.toList.map toUpperChar)

/-- The numeric-family test of database-operations.js lines 641-645 and
788-792: the declared type is truthy (nonempty) and its uppercase form
contains INT, REAL, NUMERIC, FLOAT or DOUBLE as a substring. -/
def isNumericType (columnType : String) : Bool :=
  columnType != "" &&
    (strIncludes (upperStr columnType) "INT" ||
     strIncludes (upperStr columnType) "REAL" ||
     strIncludes (upperStr columnType) "NUMERIC" ||
     strIncludes (upperStr columnType) "FLOAT" ||
     strIncludes (upperStr columnType) "DOUBLE")

/-- One SQL probe issued by a statistics fan-out: the COUNT(*) row count,
the per-column distinct/null count query, the per-column MIN/MAX/AVG
query, and the per-column DISTINCT sample query. -/
inductive Probe where
  | rowCount (table : String)
  | colStats (table col : String)
  | numericStats (table col : String)
  | sampleValues (table col : String)
deriving DecidableEq

/-- SQL MIN over the non-null values (NULL when none). -/
def minOf (l : List Int) : Option Int :=
  l.foldl (fun acc x => match acc with | none => some x | some m => some (min m x)) none

/-- SQL MAX over the non-null values (NULL when none). -/
def maxOf (l : List Int) : Option Int :=
  l.foldl (fun acc x => match acc with | none => some x | some m => some (max m x)) none

/-- SQL AVG over the non-null values, modelled exactly as the pair of sum
and count (the engine returns a float; no claim inspects its numeric
value, only the presence of the field). -/
def avgOf (l : List Int) : Option (Int × Nat) :=
  match l with
  | [] => none
  | _ => some (l.foldl (fun a x => a + x) 0, l.length)

/-- The values of one column across all rows of the table, by the ordinal
position of the first column of that name. -/
def columnValues (tb : Table) (columnName : String) : List Value :=
  let idx := tb.columns.findIdx (fun c => c.name == columnName)
  tb.rows.map (fun r => r.getD idx none)

/-- Per-column record produced by `getTableStatistics`: the outer Option
of the min/max/avg fields is their presence on the result object (absent
for non-numeric declared types), the inner Option is SQL NULL. -/
structure TableColStats where
  name : String
  type : String
  distinct_count : Nat
  null_count : Nat
  min_value : Option (Option Int)
  max_value : Option (Option Int)
  avg_value : Option (Option (Int × Nat))
deriving DecidableEq

/-- Result shape of `getTableStatistics`. -/
structure TableStats where
  table_name : String
  total_rows : Nat
  column_count : Nat
  columns : List TableColStats
deriving DecidableEq

/-- The statistics computed for one column by the probes of
`getTableStatistics` (database-operations.js lines 614-677):
COUNT(DISTINCT col) ignores NULL, null count is COUNT(*) minus
COUNT(col), and MIN/MAX/AVG exist exactly for numeric declared types. -/
def tableColStatsFor (tb : Table) (c : Column) : TableColStats :=
  let vals := columnValues tb c.name
  let nonnull := vals.filterMap id
  { name := c.name,
    type := c.type,
    distinct_count := (dedupFirst nonnull).length,
    null_count := vals.length - nonnull.length,
    min_value := if isNumericType c.type then some (minOf nonnull) else none,
    max_value := if isNumericType c.type then some (maxOf nonnull) else none,
    avg_value := if isNumericType c.type then some (avgOf nonnull) else none }

/-- `getTableStatistics` (database-operations.js lines 586-684): schema
lookup, COUNT(*), then a short-circuit for empty tables, otherwise one
concurrent probe chain per column.  The `arrival` list gives the order in
which the per-column chains complete; the source pushes each column
record on completion, so the result carries them in arrival order.  The
second component is the list of probes issued (membership is the claimed
property; true issue order interleaves across columns). -/
def getTableStatistics (db : DB) (tableName : String) (arrival : List Nat) :
    Except DbErr TableStats × List Probe :=
  match findTable db tableName with
  | none => (.error (.tableNotFound tableName), [])
  | some tb =>
    let totalRows := tb.rows.length
    if tb.columns.length = 0 ∨ totalRows = 0 then
      (.ok { table_name := tableName, total_rows := totalRows,
             column_count := tb.columns.length, columns := [] },
       [Probe.rowCount tableName])
    else
      (.ok { table_name := tableName, total_rows := totalRows,
             column_count := tb.columns.length,
             columns := arrival.map (fun i => tableColStatsFor tb (tb.columns.getD i ⟨"", ""⟩)) },
       Probe.rowCount tableName ::
         tb.columns.flatMap (fun c =>
           Probe.colStats tableName c.name ::
             (if isNumericType c.type then [Probe.numericStats tableName c.name] else [])))

/-- Per-column record produced by `getColumnStatistics`; field conventions
as in `TableColStats`, plus the non-null count and up to five distinct
non-null sample values. -/
structure ColStats where
  table_name : String
  column_name : String
  column_type : String
  distinct_count : Nat
  null_count : Nat
  non_null_count : Nat
  min_value : Option (Option Int)
  max_value : Option (Option Int)
  avg_value : Option (Option (Int × Nat))
  sample_values : List Int
deriving DecidableEq

/-- The statistics computed for one requested column by
`getColumnStatistics` (database-operations.js lines 757-852).  The
column_type falls back to UNKNOWN when the lookup fails and the numeric
test falls back to the empty string, mirroring lines 774 and 787. -/
def colStatsFor (tb : Table) (columnName : String) : ColStats :=
  let column := tb.columns.find? (fun c => c.name == columnName)
  let vals := columnValues tb columnName
  let nonnull := vals.filterMap id
  let numType := match column with | some c => c.type | none => ""
  { table_name := tb.name,
    column_name := columnName,
    column_type := match column with | some c => c.type | none => "UNKNOWN",
    distinct_count := (dedupFirst nonnull).length,
    null_count := vals.length - nonnull.length,
    non_null_count := nonnull.length,
    min_value := if isNumericType numType then some (minOf nonnull) else none,
    max_value := if isNumericType numType then some (maxOf nonnull) else none,
    avg_value := if isNumericType numType then some (avgOf nonnull) else none,
    sample_values := (dedupFirst nonnull).take 5 }

/-- `getColumnStatistics` (database-operations.js lines 741-858): verify
the table, reject with the full list of unknown requested columns before
any probe, then one concurrent probe chain per requested column, the
results pushed in completion (`arrival`) order. -/
def getColumnStatistics (db : DB) (tableName : String) (columnNames : List String)
    (arrival : List Nat) : Except DbErr (List ColStats) × List Probe :=
  match findTable db tableName with
  | none => (.error (.tableNotFound tableName), [])
  | some tb =>
    let allColumns := tb.columns.map (fun c => c.name)
    let invalidColumns := columnNames.filter (fun nm => !(allColumns.contains nm))
    if invalidColumns.isEmpty then
      (.ok (arrival.map (fun i => colStatsFor tb (columnNames.getD i ""))),
       columnNames.flatMap (fun nm =>
         Probe.colStats tableName nm ::
           ((if isNumericType (match tb.columns.find? (fun c => c.name == nm) with
               | some c => c.type
               | none => "") then [Probe.numericStats tableName nm] else []) ++
             [Probe.sampleValues tableName nm])))
    else (.error (.columnNotFound invalidColumns), [])

/-- `searchTables` (database-operations.js lines 866-884): catalog query
with the native LIKE applied to the name, ordered by name. -/
def searchTables (db : DB) (pattern : String) : List Table :=
  sortTables ((db.tables.filter (fun tb => !(isInternalName tb.name))).filter
    (fun tb => sqlLikeMatch pattern tb.name))

/-- `searchColumns` (database-operations.js lines 892-933): fan-out over
every catalog table, keeping the columns whose name passes the translated
regex test; results as (table, column, type) triples (the primary-key and
nullable flags of the source records are outside the modelled column
metadata). -/
def searchColumns (db : DB) (pattern : String) : List (String × String × String) :=
  (getTableList db none).flatMap (fun tb =>
    (tb.columns.filter (fun c => searchColumnsMatches pattern c.name)).map
      (fun c => (tb.name, c.name, c.type)))

/-- A returned row: an ordered association of column name to value, as
produced by the driver (Object.keys order = selection order). -/
abbrev RowObj := List (String × Value)

/-- Result shape of `executeQuery`. -/
structure QueryResult where
  columns : List String
  rows : List RowObj
  rowCount : Nat
deriving DecidableEq

/-- `executeQuery` (database-operations.js lines 145-191, identically in
lib/database.js): validate the query, run it through the engine (the
`qe` oracle stands for prepare/all of the driver), classify failure
messages by substring, and derive the column list from the keys of the
first returned row — so an empty result has an empty column list. -/
def executeQuery (qe : String → Except String (List RowObj)) (query : String) :
    Except DbErr QueryResult :=
  match validateSelectQuery query with
  | .error e => .error (.validation e)
  | .ok _ =>
    match qe query with
    | .error msg =>
      if strIncludes msg "no such table" then
        .error (.queryFailed ("Table not found: " ++ msg))
      else if strIncludes msg "no such column" then
        .error (.queryFailed ("Column not found: " ++ msg))
      else if strIncludes msg "syntax error" then
        .error (.queryFailed ("SQL syntax error: " ++ msg))
      else .error (.queryFailed ("Query execution failed: " ++ msg))
    | .ok rows =>
      .ok { columns := match rows with | [] => [] | r :: _ => r.map Prod.fst,
            rows := rows,
            rowCount := rows.length }

/-- The seven pragma probes of `getDatabaseInfo`
(database-operations.js lines 441-449), in issue order. -/
def pragmaList : List String :=
  ["user_version", "application_id", "page_size", "page_count", "encoding",
   "freelist_count", "schema_version"]

/-- Oracle for the probes of `getDatabaseInfo`: the filesystem stat, the
engine version query, and each pragma row.  A pragma returning ok none
models a query that succeeded without producing a row. -/
structure InfoDb where
  fileSize : Except String Nat
  versionRow : Except String (Option String)
  pragmaRow : String → Except String (Option String)

/-- Result shape of `getDatabaseInfo`; every field other than the path is
optional, absent when its probe produced no value. -/
structure DbInfo where
  path : String
  size_bytes : Option Nat
  sqlite_version : Option String
  user_version : Option String
  application_id : Option String
  page_size : Option String
  page_count : Option String
  encoding : Option String
  freelist_count : Option String
  schema_version : Option String
deriving DecidableEq

/-- Value of a probe row when the call reaches assembly: errors and
missing rows both leave the field unset (the source guards with
if (row)). -/
def rowVal (r : Except String (Option String)) : Option String :=
  match r with
  | .ok v => v
  | .error _ => none

/-- The first failing pragma probe, in issue order (the source rejects on
the first error callback and guards later ones with hasError; arrival
order may pick a different failing pragma, which no claim depends on). -/
def firstPragmaErr (d : InfoDb) : Option String :=
  pragmaList.findSome? (fun p =>
    match d.pragmaRow p with
    | .error e => some e
    | .ok _ => none)

/-- `getDatabaseInfo` (database-operations.js lines 438-491): the file
stat is wrapped in try/catch with the error ignored; the engine version
callback ignores its error as well (line 464: the error parameter is
tested only to skip the assignment) and does not participate in the
completion counter; each of the seven pragma probes rejects the whole
call on failure. -/
def getDatabaseInfo (d : InfoDb) (dbPath : String) : Except DbErr DbInfo :=
  match firstPragmaErr d with
  | some e => .error (.infoUnavailable ("Failed to get database info: " ++ e))
  | none =>
    .ok { path := dbPath,
          size_bytes := match d.fileSize with | .ok n => some n | .error _ => none,
          sqlite_version := rowVal d.versionRow,
          user_version := rowVal (d.pragmaRow "user_version"),
          application_id := rowVal (d.pragmaRow "application_id"),
          page_size := rowVal (d.pragmaRow "page_size"),
          page_count := rowVal (d.pragmaRow "page_count"),
          encoding := rowVal (d.pragmaRow "encoding"),
          freelist_count := rowVal (d.pragmaRow "freelist_count"),
          schema_version := rowVal (d.pragmaRow "schema_version") }

/-- The raw pragma row of the orders table: orders.customer_id references
customers.id, so the pragma table field is customers. -/
def fkOrdersRow : PragmaFK := ⟨"customers", "customer_id", "id"⟩

/-- The raw pragma row of the line_items table: line_items.order_id
references orders.id, so the pragma table field is orders. -/
def fkLineItemsRow : PragmaFK := ⟨"orders", "order_id", "id"⟩

/-- The three-table schema of the spec example: customers, orders with a
foreign key to customers, line_items with a foreign key to orders. -/
def relatedDB : DB :=
  ⟨[⟨"customers", [⟨"id", "INTEGER"⟩], [], []⟩,
    ⟨"orders", [⟨"id", "INTEGER"⟩, ⟨"customer_id", "INTEGER"⟩], [], [fkOrdersRow]⟩,
    ⟨"line_items", [⟨"id", "INTEGER"⟩, ⟨"order_id", "INTEGER"⟩], [], [fkLineItemsRow]⟩]⟩

/-- Claim C1: evaluation of the code on the spec example.  The raw edge
list whose referenced table is orders consists exactly of the line_items
pragma row, so the claimed incoming list is that edge; but the code
overwrites the pragma table field with the owning table name before
filtering, so it returns the orders-owned edge as incoming and the sets
collapse to the requested table itself. -/
theorem C1_related_tables_evaluation :
    findRelatedTables relatedDB "orders" =
      .ok { table_name := "orders",
            references_tables := ["orders"],
            referenced_by_tables := ["orders"],
            outgoing_foreign_keys := [⟨"orders", "customer_id", "id"⟩],
            incoming_foreign_keys := [⟨"orders", "customer_id", "id"⟩] } ∧
    relatedDB.tables.flatMap (fun tb => tb.fks.filter (fun fk => fk.table == "orders")) =
      [fkLineItemsRow] ∧
    (⟨"orders", "customer_id", "id"⟩ : PragmaFK) ≠ fkLineItemsRow := by
  refine ⟨by decide, by decide, by decide⟩

/-- Claim C6: for an existing table with zero rows, `getTableStatistics`
short-circuits to total_rows zero with an empty column-statistics list,
issuing only the COUNT(*) probe and no per-column probe at all.  (The
result object also carries the table name and the schema column count,
per the data model.) -/
theorem C6_zero_row_short_circuit (db : DB) (tb : Table) (tableName : String)
    (arrival : List Nat)
    (hf : findTable db tableName = some tb) (hr : tb.rows = []) :
    getTableStatistics db tableName arrival =
      (.ok { table_name := tableName, total_rows := 0,
             column_count := tb.columns.length, columns := [] },
       [Probe.rowCount tableName]) := by
  rw [getTableStatistics, hf]
  simp [hr]

/-- A one-column table with no rows, for the C6 witness. -/
def emptyTable : Table := ⟨"empty_t", [⟨"id", "INTEGER"⟩], [], []⟩

/-- Database holding only `emptyTable`. -/
def emptyDB : DB := ⟨[emptyTable]⟩

/-- Witness for C6 on a concrete empty table. -/
theorem C6_zero_row_witness :
    getTableStatistics emptyDB "empty_t" [] =
      (.ok { table_name := "empty_t", total_rows := 0, column_count := 1, columns := [] },
       [Probe.rowCount "empty_t"]) :=
  C6_zero_row_short_circuit emptyDB emptyTable "empty_t" [] rfl rfl

/-- Claim C10: a successful `executeQuery` whose result set is empty has
an empty ordered column list and row count zero, because the column list
is read off the keys of the first returned row. -/
theorem C10_empty_result_shape (qe : String → Except String (List RowObj))
    (q : String) (r : QueryResult)
    (h : executeQuery qe q = .ok r) (hrows : r.rows = []) :
    r.columns = [] ∧ r.rowCount = 0 := by
  rw [executeQuery] at h
  cases hv : validateSelectQuery q with
  | error e =>
    rw [hv] at h
    exact absurd h (by simp)
  | ok b =>
    rw [hv] at h
    dsimp only at h
    cases hq : qe q with
    | error msg =>
      rw [hq] at h
      dsimp only at h
      split_ifs at h
    | ok rows =>
      rw [hq] at h
      dsimp only at h
      simp only [Except.ok.injEq] at h
      subst h
      have hr : rows = [] := hrows
      subst hr
      exact ⟨rfl, rfl⟩

/-- Engine oracle returning no rows, for the C10 witness. -/
def qeEmpty : String → Except String (List RowObj) := fun _ => .ok []

/-- Witness for C10 on a query returning zero rows. -/
theorem C10_empty_result_witness :
    (⟨[], [], 0⟩ : QueryResult).columns = [] ∧ (⟨[], [], 0⟩ : QueryResult).rowCount = 0 :=
  C10_empty_result_shape qeEmpty "SELECT 1" ⟨[], [], 0⟩ (by decide) rfl

/-- Claim C8 (amended): any failing pragma probe aborts `getDatabaseInfo`
with InfoUnavailable, while the filesystem size lookup AND the engine
version probe are best-effort: when all seven pragma probes succeed the
call succeeds whatever the other two oracles return, merely leaving the
corresponding fields unset on failure. -/
theorem C8_info_probe_failure (d : InfoDb) (dbPath : String) :
    ((∃ p ∈ pragmaList, isErrB (d.pragmaRow p) = true) →
      isErrB (getDatabaseInfo d dbPath) = true) ∧
    ((∀ p ∈ pragmaList, isErrB (d.pragmaRow p) = false) →
      getDatabaseInfo d dbPath =
        .ok { path := dbPath,
              size_bytes := match d.fileSize with | .ok n => some n | .error _ => none,
              sqlite_version := rowVal d.versionRow,
              user_version := rowVal (d.pragmaRow "user_version"),
              application_id := rowVal (d.pragmaRow "application_id"),
              page_size := rowVal (d.pragmaRow "page_size"),
              page_count := rowVal (d.pragmaRow "page_count"),
              encoding := rowVal (d.pragmaRow "encoding"),
              freelist_count := rowVal (d.pragmaRow "freelist_count"),
              schema_version := rowVal (d.pragmaRow "schema_version") }) := by
  constructor
  · rintro ⟨p, hp, he⟩
    rw [getDatabaseInfo]
    cases hfe : firstPragmaErr d with
    | some e => rfl
    | none =>
      exfalso
      have hall := List.findSome?_eq_none_iff.mp hfe p hp
      cases hrow : d.pragmaRow p with
      | error e2 =>
        rw [firstPragmaErr] at hfe
        have := List.findSome?_eq_none_iff.mp hfe p hp
        rw [hrow] at this
        exact absurd this (by simp)
      | ok v =>
        rw [hrow] at he
        exact absurd he (by simp [isErrB])
  · intro hall
    rw [getDatabaseInfo]
    have hfe : firstPragmaErr d = none := by
      rw [firstPragmaErr, List.findSome?_eq_none_iff]
      intro p hp
      cases hrow : d.pragmaRow p with
      | error e =>
        have := hall p hp
        rw [hrow] at this
        exact absurd this (by simp [isErrB])
      | ok v => rfl
    rw [hfe]

/-- Oracle where only the engine version probe fails, for the C8
counterexample. -/
def versionFailDb : InfoDb := ⟨.ok 1024, .error "SELECT failed", fun _ => .ok (some "0")⟩

/-- Counterexample for C8 as stated: the engine version probe fails, yet
the call succeeds — the source ignores the error of that probe (line 464)
instead of aborting with InfoUnavailable, and the result merely omits the
version field. -/
theorem C8_version_probe_counterexample :
    isErrB versionFailDb.versionRow = true ∧
    getDatabaseInfo versionFailDb "data.db" =
      .ok { path := "data.db", size_bytes := some 1024, sqlite_version := none,
            user_version := some "0", application_id := some "0", page_size := some "0",
            page_count := some "0", encoding := some "0", freelist_count := some "0",
            schema_version := some "0" } := by
  exact ⟨rfl, rfl⟩

/-- Oracle where one pragma probe fails, for the C8 witness. -/
def pragmaFailDb : InfoDb :=
  ⟨.ok 1024, .ok (some "3.44"),
   fun p => if p = "page_size" then .error "disk IO error" else .ok (some "0")⟩

/-- Witness for C8: a failing pragma aborts the call; with all pragmas
healthy the call succeeds although the version probe failed. -/
theorem C8_info_probe_witness :
    isErrB (getDatabaseInfo pragmaFailDb "data.db") = true ∧
    getDatabaseInfo versionFailDb "other.db" =
      .ok { path := "other.db", size_bytes := some 1024, sqlite_version := none,
            user_version := some "0", application_id := some "0", page_size := some "0",
            page_count := some "0", encoding := some "0", freelist_count := some "0",
            schema_version := some "0" } :=
  ⟨(C8_info_probe_failure pragmaFailDb "data.db").1 ⟨"page_size", by decide, by decide⟩,
   (C8_info_probe_failure versionFailDb "other.db").2 (by decide)⟩

/-- Claim C7: if any requested column is absent from the schema,
`getColumnStatistics` fails with ColumnNotFound carrying the filtered
list of unknown names — which contains every unknown requested name —
and the probe trace is empty: the check precedes the fan-out. -/
theorem C7_unknown_columns_precheck (db : DB) (tb : Table) (tableName : String)
    (columnNames : List String) (arrival : List Nat)
    (hf : findTable db tableName = some tb)
    (hx : (columnNames.filter
        (fun nm => !((tb.columns.map (fun c => c.name)).contains nm))).isEmpty = false) :
    getColumnStatistics db tableName columnNames arrival =
      (.error (.columnNotFound (columnNames.filter
          (fun nm => !((tb.columns.map (fun c => c.name)).contains nm)))), []) ∧
    ∀ nm ∈ columnNames, nm ∉ tb.columns.map (fun c => c.name) →
      nm ∈ columnNames.filter
        (fun nm => !((tb.columns.map (fun c => c.name)).contains nm)) := by
  constructor
  · rw [getColumnStatistics, hf]
    simp only [hx]
    rfl
  · intro nm hmem hnot
    rw [List.mem_filter]
    refine ⟨hmem, ?_⟩
    simpa using hnot

/-- Two-column table with one row, shared by the C3 and C7 concrete
instances. -/
def statsTable : Table :=
  ⟨"t", [⟨"a", "TEXT"⟩, ⟨"b", "INTEGER"⟩], [[some 1, some 2]], []⟩

/-- Database holding only `statsTable`. -/
def statsDB : DB := ⟨[statsTable]⟩

/-- Witness for C7: requesting columns a and zzz on a table with columns
a and b fails with ColumnNotFound naming zzz, and no probe is issued. -/
theorem C7_unknown_columns_witness :
    getColumnStatistics statsDB "t" ["a", "zzz"] [0, 1] =
      (.error (.columnNotFound ["zzz"]), []) ∧
    "zzz" ∈ (["a", "zzz"].filter
      (fun nm => !((statsTable.columns.map (fun c => c.name)).contains nm))) :=
  ⟨(C7_unknown_columns_precheck statsDB statsTable "t" ["a", "zzz"] [0, 1] rfl rfl).1,
   (C7_unknown_columns_precheck statsDB statsTable "t" ["a", "zzz"] [0, 1] rfl rfl).2
     "zzz" (by decide) (by decide)⟩

lemma range_map_getD {α β : Type} (l : List α) (g : α → β) (d : α) :
    (List.range l.length).map (fun i => g (l.getD i d)) = l.map g := by
  induction l with
  | nil => rfl
  | cons x xs ih =>
    rw [List.length_cons, List.range_succ_eq_map, List.map_cons, List.map_map, List.map_cons]
    congr 1

/-- Claim C3 (amended): a successful `getColumnStatistics` returns one
statistics record per requested column, but in probe completion
(`arrival`) order — the source pushes each record as its chain completes
— so the list is a permutation of the records in the requested order and
coincides with it only when completions arrive in request order. -/
theorem C3_column_stats_order (db : DB) (tb : Table) (tableName : String)
    (columnNames : List String) (arrival : List Nat)
    (hf : findTable db tableName = some tb)
    (hv : (columnNames.filter
        (fun nm => !((tb.columns.map (fun c => c.name)).contains nm))).isEmpty = true)
    (hp : arrival.Perm (List.range columnNames.length)) :
    (getColumnStatistics db tableName columnNames arrival).1 =
      .ok (arrival.map (fun i => colStatsFor tb (columnNames.getD i ""))) ∧
    (arrival.map (fun i => colStatsFor tb (columnNames.getD i ""))).Perm
      (columnNames.map (fun nm => colStatsFor tb nm)) := by
  constructor
  · rw [getColumnStatistics, hf]
    simp only [hv]
    rfl
  · have h1 := hp.map (fun i => colStatsFor tb (columnNames.getD i ""))
    rw [range_map_getD columnNames (fun nm => colStatsFor tb nm) ""] at h1
    exact h1

/-- Projection of a column-statistics result onto the described column
names, used to state the C3 counterexample compactly. -/
def resultColumnNames (r : Except DbErr (List ColStats)) : List String :=
  match r with
  | .ok l => l.map (fun s => s.column_name)
  | .error _ => []

/-- Counterexample for C3 as stated: with requested order a, b and the
probe chains completing in the order b, a, the first element of the
result describes b, not the first requested column a. -/
theorem C3_arrival_order_counterexample :
    resultColumnNames (getColumnStatistics statsDB "t" ["a", "b"] [1, 0]).1 = ["b", "a"] ∧
    ["b", "a"] ≠ ["a", "b"] := by
  exact ⟨by decide, by decide⟩

/-- Witness for C3 at the concrete table with requested columns a, b and
reversed completion order. -/
theorem C3_column_stats_order_witness :
    (getColumnStatistics statsDB "t" ["a", "b"] [1, 0]).1 =
      .ok [colStatsFor statsTable "b", colStatsFor statsTable "a"] ∧
    ([colStatsFor statsTable "b", colStatsFor statsTable "a"]).Perm
      [colStatsFor statsTable "a", colStatsFor statsTable "b"] :=
  C3_column_stats_order statsDB statsTable "t" ["a", "b"] [1, 0] rfl rfl (by decide)

lemma getTableStatistics_trace (db : DB) (tb : Table) (tableName : String)
    (arrival : List Nat) (hf : findTable db tableName = some tb)
    (hr : tb.rows ≠ []) (hc : tb.columns ≠ []) :
    (getTableStatistics db tableName arrival).2 =
      Probe.rowCount tableName ::
        tb.columns.flatMap (fun c =>
          Probe.colStats tableName c.name ::
            (if isNumericType c.type then [Probe.numericStats tableName c.name] else [])) := by
  rw [getTableStatistics, hf]
  dsimp only
  rw [if_neg (by simp [List.length_eq_zero, hr, hc])]

lemma getColumnStatistics_trace (db : DB) (tb : Table) (tableName : String)
    (columnNames : List String) (arrival : List Nat)
    (hf : findTable db tableName = some tb)
    (hv : (columnNames.filter
        (fun nm => !((tb.columns.map (fun c => c.name)).contains nm))).isEmpty = true) :
    (getColumnStatistics db tableName columnNames arrival).2 =
      columnNames.flatMap (fun nm =>
        Probe.colStats tableName nm ::
          ((if isNumericType (match tb.columns.find? (fun c => c.name == nm) with
              | some c => c.type
              | none => "") then [Probe.numericStats tableName nm] else []) ++
            [Probe.sampleValues tableName nm])) := by
  rw [getColumnStatistics, hf]
  dsimp only
  rw [if_pos hv]

/-- Claim C9 (amended): whenever the per-column fan-out runs (nonzero row
count and at least one column for `getTableStatistics`; a valid request
for `getColumnStatistics`), the MIN/MAX/AVG probe is issued for a column
exactly when its declared type passes the numeric-family substring test;
and a column failing that test never carries min/max/avg fields,
regardless of the stored data.  (On a zero-row table the short-circuit
suppresses the numeric probe even for numeric declared types, which is
what the counterexample exhibits against the claim as stated.) -/
theorem C9_numeric_probe_gate (db : DB) (tb : Table) (tableName : String)
    (arrival : List Nat) (hf : findTable db tableName = some tb) :
    (tb.rows ≠ [] → tb.columns ≠ [] → (tb.columns.map (fun c => c.name)).Nodup →
      ∀ c ∈ tb.columns,
        (Probe.numericStats tableName c.name ∈ (getTableStatistics db tableName arrival).2 ↔
          isNumericType c.type = true)) ∧
    (∀ (columnNames : List String) (arrival2 : List Nat) (nm : String) (c : Column),
      (columnNames.filter
        (fun nm2 => !((tb.columns.map (fun c2 => c2.name)).contains nm2))).isEmpty = true →
      nm ∈ columnNames →
      tb.columns.find? (fun c2 => c2.name == nm) = some c →
      (Probe.numericStats tableName nm ∈
          (getColumnStatistics db tableName columnNames arrival2).2 ↔
        isNumericType c.type = true)) ∧
    (∀ c : Column, isNumericType c.type = false →
      (tableColStatsFor tb c).min_value = none ∧ (tableColStatsFor tb c).max_value = none ∧
        (tableColStatsFor tb c).avg_value = none) ∧
    (∀ (nm : String) (c : Column), tb.columns.find? (fun c2 => c2.name == nm) = some c →
      isNumericType c.type = false →
      (colStatsFor tb nm).min_value = none ∧ (colStatsFor tb nm).max_value = none ∧
        (colStatsFor tb nm).avg_value = none) := by
  refine ⟨?_, ?_, ?_, ?_⟩
  · intro hr hc hnd c hcmem
    rw [getTableStatistics_trace db tb tableName arrival hf hr hc]
    constructor
    · intro hmem
      simp only [List.mem_cons] at hmem
      rcases hmem with h1 | h2
      · exact absurd h1 (by simp)
      · rw [List.mem_flatMap] at h2
        obtain ⟨c2, hc2, hin⟩ := h2
        simp only [List.mem_cons] at hin
        rcases hin with h3 | h4
        · exact absurd h3 (by simp)
        · by_cases hnum : isNumericType c2.type
          · rw [if_pos hnum] at h4
            simp only [List.mem_singleton, Probe.numericStats.injEq] at h4
            have heq : c = c2 := List.inj_on_of_nodup_map hnd hcmem hc2 h4.2
            rw [heq]
            exact hnum
          · rw [if_neg hnum] at h4
            exact absurd h4 (by simp)
    · intro hnum
      rw [List.mem_cons]
      right
      rw [List.mem_flatMap]
      exact ⟨c, hcmem, by simp [hnum]⟩
  · intro columnNames arrival2 nm c hv hnmmem hfind
    rw [getColumnStatistics_trace db tb tableName columnNames arrival2 hf hv]
    rw [List.mem_flatMap]
    constructor
    · rintro ⟨nm2, hnm2, hin⟩
      simp only [List.mem_cons, List.mem_append, List.mem_singleton] at hin
      rcases hin with h1 | h2 | h3
      · exact absurd h1 (by simp)
      · by_cases hnum : isNumericType (match tb.columns.find? (fun c2 => c2.name == nm2) with
            | some c2 => c2.type
            | none => "")
        · rw [if_pos hnum] at h2
          simp only [List.mem_singleton, Probe.numericStats.injEq] at h2
          obtain ⟨-, heq⟩ := h2
          rw [← heq, hfind] at hnum
          exact hnum
        · rw [if_neg hnum] at h2
          exact absurd h2 (by simp)
      · exact absurd h3 (by simp)
    · intro hnum
      refine ⟨nm, hnmmem, ?_⟩
      rw [List.mem_cons]
      right
      rw [List.mem_append]
      left
      rw [hfind]
      rw [if_pos hnum]
      exact List.mem_singleton.mpr rfl
  · intro c hn
    refine ⟨?_, ?_, ?_⟩ <;> simp [tableColStatsFor, hn]
  · intro nm c hfind hn
    refine ⟨?_, ?_, ?_⟩ <;> simp [colStatsFor, hfind, hn]

/-- Zero-row table with a numeric column, for the C9 counterexample. -/
def emptyNumericDB : DB := ⟨[⟨"e", [⟨"n", "INTEGER"⟩], [], []⟩]⟩

/-- Counterexample for C9 as stated: the column n has the numeric declared
type INTEGER, yet `getTableStatistics` on its zero-row table issues no
MIN/MAX/AVG probe at all — the zero-row short-circuit suppresses the
whole per-column fan-out, so "probe issued iff type is numeric" fails. -/
theorem C9_zero_row_counterexample :
    isNumericType "INTEGER" = true ∧
    Probe.numericStats "e" "n" ∉ (getTableStatistics emptyNumericDB "e" []).2 := by
  exact ⟨by decide, by decide⟩

/-- Witness for C9 on the one-row table with a TEXT and an INTEGER
column: the numeric probe is issued for the INTEGER column, not for the
TEXT column, and the TEXT column carries no min/max/avg fields. -/
theorem C9_numeric_probe_witness :
    Probe.numericStats "t" "b" ∈ (getTableStatistics statsDB "t" [0, 1]).2 ∧
    Probe.numericStats "t" "a" ∉ (getTableStatistics statsDB "t" [0, 1]).2 ∧
    (colStatsFor statsTable "a").min_value = none := by
  refine ⟨?_, ?_, ?_⟩
  · exact ((C9_numeric_probe_gate statsDB statsTable "t" [0, 1] rfl).1
      (by decide) (by decide) (by decide) ⟨"b", "INTEGER"⟩ (by decide)).mpr (by decide)
  · intro hmem
    exact absurd (((C9_numeric_probe_gate statsDB statsTable "t" [0, 1] rfl).1
      (by decide) (by decide) (by decide) ⟨"a", "TEXT"⟩ (by decide)).mp hmem) (by decide)
  · exact ((C9_numeric_probe_gate statsDB statsTable "t" [0, 1] rfl).2.2.2
      "a" ⟨"a", "TEXT"⟩ (by decide) (by decide)).1
